import Mathlib

/-!
# FantacalcioApp — verification of the scoring-and-aggregation engine

Shallow embedding of the core of the FantacalcioApp repository:
`src/player.py` (fantavoto computation), `season.py` (season tables and
ranking), `loader.py` (role mapping during roster population) and
`data/matchdayprocessor.py` (cross-matchday standardization).

Python floats are modelled as exact rationals (`ℚ`); Python dicts as
association lists with insertion-order update-or-append semantics, which
is what CPython dicts guarantee.  `round(x, 1)` is modelled as
round-half-to-even at one decimal, Python's rounding rule.
-/

namespace Fanta

/-- Lookup in an association list, first binding wins — `d[k]` / `d.get(k)`. -/
def dlookup {α β : Type} [DecidableEq α] : List (α × β) → α → Option β
  | [], _ => none
  | (k, v) :: rest, k' => if k = k' then some v else dlookup rest k'

/-- `d[k] = v` on a Python dict: update the existing binding in place,
otherwise append the new binding at the end (insertion order). -/
def upsert {α β : Type} [DecidableEq α] : List (α × β) → α → β → List (α × β)
  | [], k, v => [(k, v)]
  | (k', v') :: rest, k, v =>
    if k' = k then (k, v) :: rest else (k', v') :: upsert rest k v

/-- Round-half-to-even of a rational to an integer (Python `round(x)`). -/
def roundHalfEven (q : ℚ) : ℤ :=
  let f : ℤ := ⌊q⌋
  if q - f < 1/2 then f
  else if 1/2 < q - f then f + 1
  else if f % 2 = 0 then f else f + 1

/-- Python `round(x, 1)`: round-half-to-even at one decimal place. -/
def pyRound1 (q : ℚ) : ℚ := (roundHalfEven (10 * q) : ℚ) / 10

/-- Modelled from the spec: `src/role.py` is not among the sources.  Role is
the closed enumeration {Goalkeeper, Defender, Midfielder, Forward}; its
canonical string values `G`/`D`/`M`/`F` are fixed by the lookup table in
`loader.py` and by `Player.__init__`'s `Role(role)` call. -/
inductive Role : Type where
  | G : Role
  | D : Role
  | M : Role
  | F : Role
deriving DecidableEq

/-- Modelled from the spec: the enum constructor `Role(value)` — returns the
member with that value or raises `ValueError` for any other string. -/
def Role.ofValue (v : String) : Except String Role :=
  if v = "G" then .ok .G
  else if v = "D" then .ok .D
  else if v = "M" then .ok .M
  else if v = "F" then .ok .F
  else .error ("ValueError: " ++ v ++ " is not a valid Role")

/-- Modelled from the spec: `src/playerstats.py` is not among the sources.
PlayerStats is the immutable per-matchday snapshot; its ten numeric fields
are fixed by the keyword arguments of the `PlayerStats(...)` call in
`Player.add_matchday_stats` (`src/player.py`). -/
structure PlayerStats : Type where
  rating : ℚ
  gf : ℚ
  gs : ℚ
  rp : ℚ
  rs : ℚ
  rf : ℚ
  au : ℚ
  amm : ℚ
  esp : ℚ
  ass : ℚ
deriving DecidableEq

/-- The raw per-matchday record handed to `Player.add_matchday_stats`: a dict
whose numeric keys may be absent (`stats.get('Rating', 0)` defaults to 0). -/
structure StatsInput : Type where
  rating : Option ℚ
  gf : Option ℚ
  gs : Option ℚ
  rp : Option ℚ
  rs : Option ℚ
  rf : Option ℚ
  au : Option ℚ
  amm : Option ℚ
  esp : Option ℚ
  ass : Option ℚ
deriving DecidableEq

/-- `Player` (`src/player.py`): identity, role, and the two per-matchday maps. -/
structure Player : Type where
  cod : ℤ
  role : Role
  name : String
  real_team : String
  matchday_stats : List (ℕ × PlayerStats)
  matchday_fantavoto : List (ℕ × ℚ)
deriving DecidableEq

/-- `Player.__init__` with an already-validated role: both maps start empty. -/
def Player.init (cod : ℤ) (role : Role) (name : String) (team : String) : Player :=
  { cod := cod, role := role, name := name, real_team := team
    matchday_stats := [], matchday_fantavoto := [] }

/-- `Player.add_matchday_stats`: store a snapshot for the matchday, each
field defaulting to 0 when absent from the record. -/
def Player.add_matchday_stats (p : Player) (matchday : ℕ) (stats : StatsInput) : Player :=
  let snapshot : PlayerStats :=
    { rating := stats.rating.getD 0, gf := stats.gf.getD 0, gs := stats.gs.getD 0,
      rp := stats.rp.getD 0, rs := stats.rs.getD 0, rf := stats.rf.getD 0,
      au := stats.au.getD 0, amm := stats.amm.getD 0, esp := stats.esp.getD 0,
      ass := stats.ass.getD 0 }
  { p with matchday_stats := upsert p.matchday_stats matchday snapshot }

/-- `Player.get_stats`: the stored snapshot for the matchday, if any. -/
def Player.get_stats (p : Player) (matchday : ℕ) : Option PlayerStats :=
  dlookup p.matchday_stats matchday

/-- `Player.calculate_fantavoto`, translated line by line from
`src/player.py`: rating 0 (or no stats) short-circuits to 0.0; otherwise
the additive formula, goalkeeper clean-sheet bonus and per-goal malus,
then `round(·, 1)`. -/
def Player.calculate_fantavoto (p : Player) (matchday : ℕ) : ℚ :=
  match p.get_stats matchday with
  | none => 0
  | some stats =>
    if stats.rating = 0 then 0
    else
      let fv := stats.rating
      let fv := fv + stats.gf * 3
      let fv := fv + stats.ass * 1
      let fv := fv - stats.rp * 3
      let fv := fv + stats.rs * 3
      let fv := fv - stats.amm * (1/2)
      let fv := fv - stats.esp * 1
      let fv := fv - stats.au * 2
      let fv := if p.role = Role.G ∧ stats.gs = 0 then fv + 1 else fv
      let fv := if p.role = Role.G then fv - stats.gs * 1 else fv
      pyRound1 fv

/-- `Player.add_matchday_fantavoto`: cache the computed fantavoto. -/
def Player.add_matchday_fantavoto (p : Player) (matchday : ℕ) : Player :=
  { p with matchday_fantavoto :=
      upsert p.matchday_fantavoto matchday (p.calculate_fantavoto matchday) }

/-- `Player.has_played`: stats exist and rating is positive. -/
def Player.has_played (p : Player) (matchday : ℕ) : Bool :=
  match p.get_stats matchday with
  | none => false
  | some stats => decide (0 < stats.rating)

/-- A concrete all-zero stats record, used by small examples below. -/
def zeroStats : PlayerStats :=
  { rating := 0, gf := 0, gs := 0, rp := 0, rs := 0,
    rf := 0, au := 0, amm := 0, esp := 0, ass := 0 }

/-- A player holding exactly one stats snapshot for matchday 1. -/
def onePlayer (role : Role) (stats : PlayerStats) : Player :=
  { Player.init 1 role "N" "T" with matchday_stats := [(1, stats)] }

/-- C1 — For stored stats with nonzero rating, `calculate_fantavoto` is the
rounded spec formula: rating + 3·goals_for + 1·assists − 3·penalties_missed
+ 3·penalties_saved − 0.5·yellow_cards − 1·red_cards − 2·own_goals, with the
goalkeeper terms −1·goals_against and +1 on a clean sheet, rounded to one
decimal; in particular a non-goalkeeper with rating 6, one goal and one
assist scores 10.0, a goalkeeper with rating 6 and 0 conceded scores 7.0,
and a goalkeeper with rating 6 and 2 conceded scores 4.0. -/
theorem calculate_fantavoto_formula (p : Player) (m : ℕ) (stats : PlayerStats)
    (hs : p.get_stats m = some stats) (hr : stats.rating ≠ 0) :
    p.calculate_fantavoto m =
      pyRound1 (stats.rating + 3 * stats.gf + 1 * stats.ass - 3 * stats.rp
        + 3 * stats.rs - (1/2) * stats.amm - 1 * stats.esp - 2 * stats.au
        + (if p.role = Role.G then
            (0 : ℚ) - 1 * stats.gs + (if stats.gs = 0 then 1 else 0)
          else 0)) ∧
    (onePlayer Role.M { zeroStats with rating := 6, gf := 1, ass := 1
      }).calculate_fantavoto 1 = 10 ∧
    (onePlayer Role.G { zeroStats with rating := 6 }).calculate_fantavoto 1 = 7 ∧
    (onePlayer Role.G { zeroStats with rating := 6, gs := 2
      }).calculate_fantavoto 1 = 4 := by
  refine ⟨?_, ?_, ?_, ?_⟩
  · unfold Player.calculate_fantavoto
    rw [hs]
    dsimp only
    rw [if_neg hr]
    by_cases hrole : p.role = Role.G
    · by_cases hgs : stats.gs = 0
      · simp only [hrole, hgs, and_self, if_true, true_and]
        congr 1
        ring
      · simp only [hrole, hgs, and_false, if_false, if_true, true_and]
        congr 1
        ring
    · simp only [hrole, false_and, if_false]
      congr 1
      ring
  all_goals
    norm_num [Player.calculate_fantavoto, Player.get_stats, onePlayer, Player.init,
      dlookup, zeroStats, pyRound1, roundHalfEven,
      show Role.M ≠ Role.G from by decide]

/-- Witness for C1: the formula theorem applied to the concrete
non-goalkeeper with rating 6, one goal and one assist. -/
theorem calculate_fantavoto_formula_witness :
    (onePlayer Role.M { zeroStats with rating := 6, gf := 1, ass := 1
      }).calculate_fantavoto 1 =
      pyRound1 ((6 : ℚ) + 3 * 1 + 1 * 1 - 3 * 0 + 3 * 0 - (1/2) * 0 - 1 * 0
        - 2 * 0 + 0) := by
  have h := calculate_fantavoto_formula
    (onePlayer Role.M { zeroStats with rating := 6, gf := 1, ass := 1 }) 1
    { zeroStats with rating := 6, gf := 1, ass := 1 } (by decide) (by decide)
  refine h.1.trans ?_
  norm_num [onePlayer, Player.init, zeroStats, show Role.M ≠ Role.G from by decide]

/-- C2 — rating 0 (or a missing stats entry) forces fantavoto 0.0 whatever
the other stat fields hold: the did-not-play sentinel bypasses the formula. -/
theorem calculate_fantavoto_sentinel (p : Player) (m : ℕ) :
    (∀ stats, p.get_stats m = some stats → stats.rating = 0 →
      p.calculate_fantavoto m = 0) ∧
    (p.get_stats m = none → p.calculate_fantavoto m = 0) := by
  constructor
  · intro stats hs hr
    unfold Player.calculate_fantavoto
    rw [hs]
    simp [hr]
  · intro hs
    unfold Player.calculate_fantavoto
    rw [hs]

/-- All stat fields 9 except a zero rating: the sentinel must win. -/
def loudZeroRating : PlayerStats :=
  { rating := 0, gf := 9, gs := 9, rp := 9, rs := 9,
    rf := 9, au := 9, amm := 9, esp := 9, ass := 9 }

/-- Witness for C2: a player with rating 0 but every other stat nonzero
still scores 0.0, and a matchday with no stats scores 0.0. -/
theorem calculate_fantavoto_sentinel_witness :
    (onePlayer Role.G loudZeroRating).calculate_fantavoto 1 = 0 ∧
    (Player.init 1 Role.M "N" "T").calculate_fantavoto 5 = 0 := by
  constructor
  · exact (calculate_fantavoto_sentinel (onePlayer Role.G loudZeroRating) 1).1
      loudZeroRating (by decide) (by decide)
  · exact (calculate_fantavoto_sentinel (Player.init 1 Role.M "N" "T") 5).2
      (by decide)

/-! ## Association-list (Python dict) lemmas -/

theorem dlookup_upsert {α β : Type} [DecidableEq α] (l : List (α × β)) (k k' : α) (v : β) :
    dlookup (upsert l k v) k' = if k = k' then some v else dlookup l k' := by
  induction l with
  | nil => simp [upsert, dlookup]
  | cons hd tl ih =>
    obtain ⟨k0, v0⟩ := hd
    by_cases h0 : k0 = k
    · subst h0
      simp only [upsert, if_pos rfl, dlookup]
      by_cases h1 : k0 = k' <;> simp [h1]
    · simp only [upsert, if_neg h0, dlookup, ih]
      by_cases h1 : k0 = k'
      · have hk : k ≠ k' := fun he => h0 (h1.trans he.symm)
        simp [h1, hk]
      · simp [h1]

theorem map_fst_upsert {α β : Type} [DecidableEq α] (l : List (α × β)) (k : α) (v : β) :
    (upsert l k v).map Prod.fst =
      if k ∈ l.map Prod.fst then l.map Prod.fst else l.map Prod.fst ++ [k] := by
  induction l with
  | nil => simp [upsert]
  | cons hd tl ih =>
    obtain ⟨k0, v0⟩ := hd
    by_cases h0 : k0 = k
    · subst h0
      simp [upsert]
    · simp only [upsert, if_neg h0, List.map_cons, ih, List.mem_cons]
      have hne : ¬ k = k0 := fun he => h0 he.symm
      by_cases h1 : k ∈ tl.map Prod.fst <;> simp [h1, hne]

theorem map_snd_upsert_of_not_mem {α β : Type} [DecidableEq α] (l : List (α × β))
    (k : α) (v : β) (h : k ∉ l.map Prod.fst) :
    (upsert l k v).map Prod.snd = l.map Prod.snd ++ [v] := by
  induction l with
  | nil => simp [upsert]
  | cons hd tl ih =>
    obtain ⟨k0, v0⟩ := hd
    simp only [List.map_cons, List.mem_cons] at h
    push_neg at h
    simp only [upsert, if_neg (Ne.symm h.1), List.map_cons, ih h.2,
      List.cons_append]

/-! ## Team — spec-modelled -/

/-- Modelled from the spec: `team.py` is not among the sources.  Only what
the season engine reads is kept: the team's name and its rostered players,
with `calculate_total_score(matchday)` the sum of every rostered player's
fantavoto for that matchday (non-players contribute 0 via the sentinel; an
empty roster scores 0.0). -/
structure Team : Type where
  name : String
  players : List Player
deriving DecidableEq

/-- Modelled from the spec: `Team.calculate_total_score`. -/
def Team.calculate_total_score (t : Team) (matchday : ℕ) : ℚ :=
  (t.players.map (fun p => p.calculate_fantavoto matchday)).sum

/-! ## SeasonTable (`season.py`) -/

/-- `SeasonTable.__init__`. -/
structure SeasonTable : Type where
  team : Team
  total_points : ℚ
  matchday_scores : List (ℕ × ℚ)
  matchdays_played : ℕ
deriving DecidableEq

/-- `SeasonTable(team)`: zero totals, empty score map. -/
def SeasonTable.init (team : Team) : SeasonTable :=
  { team := team, total_points := 0, matchday_scores := [], matchdays_played := 0 }

/-- `SeasonTable.add_matchday_score`: bump `matchdays_played` only for a new
key, overwrite the map entry, recompute `total_points` as the sum of the
current map values. -/
def SeasonTable.add_matchday_score (st : SeasonTable) (matchday : ℕ) (score : ℚ) :
    SeasonTable :=
  let played := if matchday ∈ st.matchday_scores.map Prod.fst then
    st.matchdays_played else st.matchdays_played + 1
  let scores := upsert st.matchday_scores matchday score
  { st with
      matchdays_played := played
      matchday_scores := scores
      total_points := (scores.map Prod.snd).sum }

/-- Replay a sequence of `add_matchday_score` calls. -/
def SeasonTable.applyScores (st : SeasonTable) (calls : List (ℕ × ℚ)) : SeasonTable :=
  calls.foldl (fun st c => st.add_matchday_score c.1 c.2) st

/-- One `add_matchday_score` call preserves key-uniqueness and the counter. -/
theorem add_matchday_score_key_inv (st : SeasonTable) (m : ℕ) (q : ℚ)
    (h : (st.matchday_scores.map Prod.fst).Nodup ∧
      st.matchdays_played = (st.matchday_scores.map Prod.fst).length) :
    ((st.add_matchday_score m q).matchday_scores.map Prod.fst).Nodup ∧
      (st.add_matchday_score m q).matchdays_played =
        ((st.add_matchday_score m q).matchday_scores.map Prod.fst).length := by
  obtain ⟨hnd, hlen⟩ := h
  have hkeys : (st.add_matchday_score m q).matchday_scores.map Prod.fst =
      if m ∈ st.matchday_scores.map Prod.fst then st.matchday_scores.map Prod.fst
      else st.matchday_scores.map Prod.fst ++ [m] := map_fst_upsert _ _ _
  have hplayed : (st.add_matchday_score m q).matchdays_played =
      if m ∈ st.matchday_scores.map Prod.fst then st.matchdays_played
      else st.matchdays_played + 1 := rfl
  by_cases hm : m ∈ st.matchday_scores.map Prod.fst
  · rw [hkeys, if_pos hm, hplayed, if_pos hm]
    exact ⟨hnd, hlen⟩
  · rw [hkeys, if_neg hm, hplayed, if_neg hm]
    constructor
    · refine List.nodup_append.mpr ⟨hnd, List.nodup_singleton m, ?_⟩
      intro a ha hmem
      rw [List.mem_singleton] at hmem
      subst hmem
      exact hm ha
    · simp [hlen]

/-- The key invariant holds after any replayed call sequence. -/
theorem applyScores_key_inv (calls : List (ℕ × ℚ)) (st : SeasonTable)
    (h : (st.matchday_scores.map Prod.fst).Nodup ∧
      st.matchdays_played = (st.matchday_scores.map Prod.fst).length) :
    ((st.applyScores calls).matchday_scores.map Prod.fst).Nodup ∧
      (st.applyScores calls).matchdays_played =
        ((st.applyScores calls).matchday_scores.map Prod.fst).length := by
  induction calls generalizing st with
  | nil => exact h
  | cons c rest ih =>
    exact ih (st.add_matchday_score c.1 c.2) (add_matchday_score_key_inv st c.1 c.2 h)

/-- C3 — After any sequence of `add_matchday_score` calls (repeats allowed),
`total_points` is the sum of the values currently in `matchday_scores` and
`matchdays_played` is the number of distinct keys in the map; re-adding a
matchday overwrites rather than double-counts: 5 then 7 for the same
matchday leaves a total of 7. -/
theorem season_table_invariant (t : Team) (calls : List (ℕ × ℚ)) :
    ((SeasonTable.init t).applyScores calls).total_points =
      (((SeasonTable.init t).applyScores calls).matchday_scores.map Prod.snd).sum ∧
    ((SeasonTable.init t).applyScores calls).matchdays_played =
      ((((SeasonTable.init t).applyScores calls).matchday_scores.map Prod.fst).dedup).length ∧
    ((SeasonTable.init t).applyScores [(1, 5), (1, 7)]).total_points = 7 := by
  have hinv := applyScores_key_inv calls (SeasonTable.init t)
    (by simp [SeasonTable.init])
  refine ⟨?_, ?_, ?_⟩
  · cases calls with
    | nil => simp [SeasonTable.applyScores, SeasonTable.init]
    | cons c rest =>
      have : ∀ (st : SeasonTable) (cs : List (ℕ × ℚ)) (hst : st.total_points =
          (st.matchday_scores.map Prod.snd).sum),
          (st.applyScores cs).total_points =
            ((st.applyScores cs).matchday_scores.map Prod.snd).sum := by
        intro st cs
        induction cs generalizing st with
        | nil => intro hst; exact hst
        | cons c rest ih =>
          intro _
          exact ih (st.add_matchday_score c.1 c.2) rfl
      exact this _ _ (by simp [SeasonTable.init])
  · rw [List.dedup_eq_self.mpr hinv.1]
    exact hinv.2
  · norm_num [SeasonTable.applyScores, SeasonTable.init, SeasonTable.add_matchday_score,
      upsert, dlookup]

/-! ## C4 — the stats/fantavoto cache relation on `Player` -/

/-- The operations `Player` exposes for per-matchday ingestion. -/
inductive PlayerOp : Type where
  | addStats : ℕ → StatsInput → PlayerOp
  | addFanta : ℕ → PlayerOp
deriving DecidableEq

/-- Run one operation. -/
def Player.applyOp (p : Player) : PlayerOp → Player
  | .addStats m r => p.add_matchday_stats m r
  | .addFanta m => p.add_matchday_fantavoto m

/-- Run a sequence of operations. -/
def Player.applyOps (p : Player) (ops : List PlayerOp) : Player :=
  ops.foldl Player.applyOp p

/-- A sample raw record: rating 6, one goal, one assist, other keys absent. -/
def sampleInput : StatsInput :=
  { rating := some 6, gf := some 1, gs := none, rp := none, rs := none,
    rf := none, au := none, amm := none, esp := none, ass := some 1 }

/-- Counterexample to C4 as stated: after the operation sequence consisting
of a single `add_matchday_stats(1, ...)` call (no `add_matchday_fantavoto`),
a stats entry exists for matchday 1 but no fantavoto entry does — the iff
fails for this sequence of operations. -/
theorem fantavoto_cache_counterexample :
    (dlookup ((Player.init 1 Role.M "N" "T").applyOps
      [PlayerOp.addStats 1 sampleInput]).matchday_stats 1).isSome = true ∧
    (dlookup ((Player.init 1 Role.M "N" "T").applyOps
      [PlayerOp.addStats 1 sampleInput]).matchday_fantavoto 1).isSome = false := by
  decide

/-- The loader's ingestion step (`load_all_matchday_stats`): stats for a
matchday are stored and the fantavoto cache for that matchday is recomputed
immediately afterwards. -/
def Player.ingest (p : Player) (m : ℕ) (r : StatsInput) : Player :=
  (p.add_matchday_stats m r).add_matchday_fantavoto m

/-- Ingest a batch of (matchday, record) pairs in order. -/
def Player.ingestAll (p : Player) (entries : List (ℕ × StatsInput)) : Player :=
  entries.foldl (fun p e => p.ingest e.1 e.2) p

/-- `calculate_fantavoto` only reads the role and the stats map. -/
theorem calculate_fantavoto_congr (p q : Player) (m : ℕ)
    (hr : p.role = q.role) (hs : p.get_stats m = q.get_stats m) :
    p.calculate_fantavoto m = q.calculate_fantavoto m := by
  unfold Player.calculate_fantavoto
  rw [hr, hs]

/-- Cache coherence for ingestion sequences, in one equation: the fantavoto
map has an entry for a matchday exactly when the stats map does, and that
entry is `calculate_fantavoto` of the currently stored stats. -/
theorem ingestAll_cache_eq (entries : List (ℕ × StatsInput)) (p : Player)
    (h : ∀ m : ℕ, dlookup p.matchday_fantavoto m =
      if (dlookup p.matchday_stats m).isSome = true then
        some (p.calculate_fantavoto m) else none) :
    ∀ m : ℕ, dlookup (p.ingestAll entries).matchday_fantavoto m =
      if (dlookup (p.ingestAll entries).matchday_stats m).isSome = true then
        some ((p.ingestAll entries).calculate_fantavoto m) else none := by
  induction entries generalizing p with
  | nil => exact h
  | cons e rest ih =>
    refine ih (p.ingest e.1 e.2) ?_
    intro m
    have hstats : (p.ingest e.1 e.2).matchday_stats =
        upsert p.matchday_stats e.1
          ({ rating := e.2.rating.getD 0, gf := e.2.gf.getD 0, gs := e.2.gs.getD 0,
             rp := e.2.rp.getD 0, rs := e.2.rs.getD 0, rf := e.2.rf.getD 0,
             au := e.2.au.getD 0, amm := e.2.amm.getD 0, esp := e.2.esp.getD 0,
             ass := e.2.ass.getD 0 }) := rfl
    have hfv : (p.ingest e.1 e.2).matchday_fantavoto =
        upsert p.matchday_fantavoto e.1
          ((p.add_matchday_stats e.1 e.2).calculate_fantavoto e.1) := rfl
    by_cases hm : e.1 = m
    · subst hm
      rw [hfv, dlookup_upsert, if_pos rfl, hstats, dlookup_upsert, if_pos rfl]
      simp only [Option.isSome_some, if_pos]
      refine congrArg some ?_
      exact calculate_fantavoto_congr _ _ e.1 rfl rfl
    · rw [hfv, dlookup_upsert, if_neg hm, hstats, dlookup_upsert, if_neg hm]
      rw [h m]
      rcases hopt : dlookup p.matchday_stats m with _ | s
      · simp [hopt]
      · simp only [hopt, Option.isSome_some, if_pos]
        refine congrArg some ?_
        refine calculate_fantavoto_congr _ _ m rfl ?_
        show dlookup p.matchday_stats m = dlookup (p.ingest e.1 e.2).matchday_stats m
        rw [hstats, dlookup_upsert, if_neg hm]

/-- C4 (amended) — For a freshly constructed player and any batch of
matchday records ingested the way the loader does (each
`add_matchday_stats` immediately followed by `add_matchday_fantavoto`), a
fantavoto entry exists for a matchday iff a stats entry does, and it equals
`calculate_fantavoto` of the currently stored stats — re-ingesting a
matchday recomputes the cache. -/
theorem fantavoto_cache_invariant (cod : ℤ) (role : Role) (name team : String)
    (entries : List (ℕ × StatsInput)) (m : ℕ) :
    dlookup ((Player.init cod role name team).ingestAll entries).matchday_fantavoto m =
      if (dlookup ((Player.init cod role name team).ingestAll entries).matchday_stats
          m).isSome = true then
        some (((Player.init cod role name team).ingestAll entries).calculate_fantavoto m)
      else none :=
  ingestAll_cache_eq entries (Player.init cod role name team)
    (fun _ => by simp [Player.init, dlookup]) m


/-! ## Season (`season.py`) -/

/-- `Season.__init__`: the table dict maps each team name to a fresh
`SeasonTable`; the current-matchday pointer starts at 1. -/
structure Season : Type where
  name : String
  teams : List Team
  table : List (String × SeasonTable)
  current_matchday : ℕ
  season_completed : Bool
deriving DecidableEq

/-- `Season(teams, name)`. -/
def Season.init (teams : List Team) (name : String) : Season :=
  { name := name
    teams := teams
    table := teams.foldl (fun tb t => upsert tb t.name (SeasonTable.init t)) []
    current_matchday := 1
    season_completed := false }

/-- `self.table[name].method(...)": in-place mutation of the entry for
`name` (the constructor creates an entry for every team name, so the
`KeyError` branch of the subscript is unreachable; a missing key is a
no-op here). -/
def tableUpdate (tb : List (String × SeasonTable)) (name : String)
    (f : SeasonTable → SeasonTable) : List (String × SeasonTable) :=
  tb.map (fun kv => if kv.1 = name then (kv.1, f kv.2) else kv)

/-- The `for team in self.teams` loop of `process_matchday`: accumulate the
per-team scores dict and mutate each team's `SeasonTable`. -/
def scoreFold (matchday : ℕ)
    (acc : List (String × ℚ) × List (String × SeasonTable)) :
    List Team → List (String × ℚ) × List (String × SeasonTable)
  | [] => acc
  | team :: rest =>
    let score := team.calculate_total_score matchday
    scoreFold matchday
      (upsert acc.1 team.name score,
        tableUpdate acc.2 team.name (fun st => st.add_matchday_score matchday score))
      rest

/-- `Season.process_matchday`: range check first (raising leaves the season
untouched, hence the state is returned alongside the result), then score
every team, then advance the pointer only when it equals the matchday. -/
def Season.process_matchday (s : Season) (matchday : ℕ) :
    Except String (List (String × ℚ)) × Season :=
  if 38 < matchday ∨ matchday < 1 then
    (.error "Matchday must be between 1 and 38", s)
  else
    let res := scoreFold matchday ([], s.table) s.teams
    let cur := if matchday = s.current_matchday then s.current_matchday + 1
      else s.current_matchday
    (.ok res.1, { s with table := res.2, current_matchday := cur })

/-- C5 — `process_matchday(n)` with `n` out of [1, 38] fails with the range
error and returns the season state exactly as it was: no table is touched,
no counter changes. -/
theorem process_matchday_out_of_range (s : Season) (n : ℕ) (h : n < 1 ∨ 38 < n) :
    (s.process_matchday n).1 = Except.error "Matchday must be between 1 and 38" ∧
    (s.process_matchday n).2 = s := by
  unfold Season.process_matchday
  rw [if_pos h.symm]
  exact ⟨rfl, rfl⟩

/-- A one-team season used to instantiate the season-level theorems. -/
def teamA : Team := { name := "A", players := [] }

/-- A second team for the two-team instances. -/
def teamB : Team := { name := "B", players := [] }

/-- Witness for C5: matchday 0 and matchday 39 both error and leave the
freshly constructed one-team season unchanged. -/
theorem process_matchday_out_of_range_witness :
    ((Season.init [teamA] "S").process_matchday 0).1 =
      Except.error "Matchday must be between 1 and 38" ∧
    ((Season.init [teamA] "S").process_matchday 0).2 = Season.init [teamA] "S" ∧
    ((Season.init [teamA] "S").process_matchday 39).1 =
      Except.error "Matchday must be between 1 and 38" ∧
    ((Season.init [teamA] "S").process_matchday 39).2 = Season.init [teamA] "S" := by
  have h0 := process_matchday_out_of_range (Season.init [teamA] "S") 0
    (Or.inl (by norm_num))
  have h39 := process_matchday_out_of_range (Season.init [teamA] "S") 39
    (Or.inr (by norm_num))
  exact ⟨h0.1, h0.2, h39.1, h39.2⟩

/-! ### C8 — in-range processing -/

theorem dlookup_cons {α β : Type} [DecidableEq α] (a : α) (b : β)
    (l : List (α × β)) (k : α) :
    dlookup ((a, b) :: l) k = if a = k then some b else dlookup l k := rfl

theorem tableUpdate_cons (k : String) (v : SeasonTable)
    (tl : List (String × SeasonTable)) (name : String) (f : SeasonTable → SeasonTable) :
    tableUpdate ((k, v) :: tl) name f =
      (if k = name then (k, f v) else (k, v)) :: tableUpdate tl name f := by
  simp only [tableUpdate, List.map_cons]

theorem dlookup_tableUpdate_self (tb : List (String × SeasonTable)) (name : String)
    (f : SeasonTable → SeasonTable) :
    dlookup (tableUpdate tb name f) name = (dlookup tb name).map f := by
  induction tb with
  | nil => rfl
  | cons hd tl ih =>
    obtain ⟨k, v⟩ := hd
    rw [tableUpdate_cons]
    by_cases hk : k = name
    · rw [if_pos hk]
      simp only [dlookup_cons, if_pos hk, Option.map_some']
    · rw [if_neg hk]
      simp only [dlookup_cons, if_neg hk]
      exact ih

theorem dlookup_tableUpdate_ne (tb : List (String × SeasonTable))
    (name name' : String) (f : SeasonTable → SeasonTable) (h : name' ≠ name) :
    dlookup (tableUpdate tb name' f) name = dlookup tb name := by
  induction tb with
  | nil => rfl
  | cons hd tl ih =>
    obtain ⟨k, v⟩ := hd
    rw [tableUpdate_cons]
    by_cases hk : k = name'
    · have hkn : ¬ k = name := fun he => h (hk.symm.trans he)
      rw [if_pos hk]
      simp only [dlookup_cons, if_neg hkn]
      exact ih
    · rw [if_neg hk]
      by_cases hk2 : k = name
      · simp only [dlookup_cons, if_pos hk2]
      · simp only [dlookup_cons, if_neg hk2]
        exact ih

/-- Teams whose name never occurs later in the loop leave their table entry
untouched by the remaining iterations. -/
theorem scoreFold_table_untouched (matchday : ℕ) (ts : List Team)
    (acc : List (String × ℚ) × List (String × SeasonTable)) (name : String)
    (h : name ∉ ts.map Team.name) :
    dlookup (scoreFold matchday acc ts).2 name = dlookup acc.2 name := by
  induction ts generalizing acc with
  | nil => rfl
  | cons t rest ih =>
    simp only [List.map_cons, List.mem_cons] at h
    push_neg at h
    rw [scoreFold, ih _ h.2, dlookup_tableUpdate_ne _ _ _ _ (Ne.symm h.1)]

/-- Each team's table entry after the loop is its entry before the loop with
this matchday's score added, provided team names are distinct. -/
theorem scoreFold_table_lookup (matchday : ℕ) (ts : List Team)
    (acc : List (String × ℚ) × List (String × SeasonTable))
    (hnd : (ts.map Team.name).Nodup) (t : Team) (ht : t ∈ ts) :
    dlookup (scoreFold matchday acc ts).2 t.name =
      (dlookup acc.2 t.name).map
        (fun st => st.add_matchday_score matchday (t.calculate_total_score matchday)) := by
  induction ts generalizing acc with
  | nil => cases ht
  | cons t0 rest ih =>
    simp only [List.map_cons, List.nodup_cons] at hnd
    rcases List.mem_cons.mp ht with h0 | hrest
    · subst h0
      rw [scoreFold, scoreFold_table_untouched matchday rest _ t.name hnd.1,
        dlookup_tableUpdate_self]
    · have hne : t0.name ≠ t.name := by
        intro he
        exact hnd.1 (he ▸ List.mem_map_of_mem Team.name hrest)
      rw [scoreFold, ih _ hnd.2 hrest, dlookup_tableUpdate_ne _ _ _ _ hne]

/-- C8 — For in-range `n`, `process_matchday(n)` succeeds, adds this
matchday's score to every team's table, and advances the current-matchday
pointer exactly when `n` equals it; any other in-range `n` records the
scores but leaves the pointer unchanged. -/
theorem process_matchday_in_range (s : Season) (n : ℕ)
    (h1 : 1 ≤ n) (h2 : n ≤ 38) (hnd : (s.teams.map Team.name).Nodup) :
    (∃ scores, (s.process_matchday n).1 = Except.ok scores) ∧
    (s.process_matchday n).2.current_matchday =
      (if n = s.current_matchday then s.current_matchday + 1
        else s.current_matchday) ∧
    ∀ t ∈ s.teams, dlookup (s.process_matchday n).2.table t.name =
      (dlookup s.table t.name).map
        (fun st => st.add_matchday_score n (t.calculate_total_score n)) := by
  have hguard : ¬ (38 < n ∨ n < 1) := by
    push_neg
    exact ⟨h2, h1⟩
  unfold Season.process_matchday
  rw [if_neg hguard]
  refine ⟨⟨_, rfl⟩, rfl, ?_⟩
  intro t ht
  exact scoreFold_table_lookup n s.teams ([], s.table) hnd t ht

/-- Witness for C8: in the fresh one-team season (pointer 1), processing
matchday 5 keeps the pointer at 1 yet records a score-5 entry for team A;
processing matchday 1 advances the pointer to 2. -/
theorem process_matchday_in_range_witness :
    ((Season.init [teamA] "S").process_matchday 5).2.current_matchday = 1 ∧
    dlookup ((Season.init [teamA] "S").process_matchday 5).2.table "A" =
      some ((SeasonTable.init teamA).add_matchday_score 5 0) ∧
    ((Season.init [teamA] "S").process_matchday 1).2.current_matchday = 2 := by
  have h5 := process_matchday_in_range (Season.init [teamA] "S") 5
    (by norm_num) (by norm_num) (by decide)
  have h1 := process_matchday_in_range (Season.init [teamA] "S") 1
    (by norm_num) (by norm_num) (by decide)
  refine ⟨?_, ?_, ?_⟩
  · rw [h5.2.1]
    norm_num [Season.init]
  · have := h5.2.2 teamA (by decide)
    rw [show teamA.name = "A" from rfl] at this
    rw [this]
    norm_num [Season.init, upsert, dlookup, Team.calculate_total_score, teamA]
  · rw [h1.2.1]
    norm_num [Season.init]


/-! ## `SeasonTable.get_stats` and the ranked season table -/

/-- Python `max(values)` guarded by `if self.matchday_scores else 0.0`. -/
def pyMaxList : List ℚ → ℚ
  | [] => 0
  | v :: vs => vs.foldl max v

/-- Python `min(values)` guarded by `if self.matchday_scores else 0.0`. -/
def pyMinList : List ℚ → ℚ
  | [] => 0
  | v :: vs => vs.foldl min v

/-- The dict returned by `SeasonTable.get_stats` (the `position` key is
added later by `get_season_table`). -/
structure TeamStats : Type where
  team : String
  total_points : ℚ
  matchdays_played : ℕ
  average_score : ℚ
  best_score : ℚ
  worst_score : ℚ
deriving DecidableEq

/-- `SeasonTable.get_stats`: rounded totals, average over
`max(matchdays_played, 1)`, best/worst over the recorded scores. -/
def SeasonTable.get_stats (st : SeasonTable) : TeamStats :=
  { team := st.team.name
    total_points := pyRound1 st.total_points
    matchdays_played := st.matchdays_played
    average_score := pyRound1 (st.total_points / (max st.matchdays_played 1 : ℕ))
    best_score := pyMaxList (st.matchday_scores.map Prod.snd)
    worst_score := pyMinList (st.matchday_scores.map Prod.snd) }

/-- The sort key of `get_season_table`: `total_points` descending, the only
key (`key=lambda x: x['total_points'], reverse=True`). -/
def byPoints (a b : TeamStats) : Prop := b.total_points ≤ a.total_points

instance : DecidableRel byPoints :=
  fun a b => inferInstanceAs (Decidable (b.total_points ≤ a.total_points))

instance : IsTotal TeamStats byPoints :=
  ⟨fun a b => le_total b.total_points a.total_points⟩

instance : IsTrans TeamStats byPoints :=
  ⟨fun _ _ _ h1 h2 => le_trans h2 h1⟩

/-- `for i, team_data in enumerate(table_data): team_data['position'] = i+1` —
attach 1-based positions in list order. -/
def rank : ℕ → List TeamStats → List (TeamStats × ℕ)
  | _, [] => []
  | i, e :: rest => (e, i) :: rank (i + 1) rest

/-- `Season.get_season_table`: per-team stats snapshots, stable-sorted by
total points descending, then positions 1..N attached.  Python's
`list.sort` is stable and `reverse=True` preserves the original order of
ties, which insertion sort under `byPoints` reproduces. -/
def Season.get_season_table (s : Season) : List (TeamStats × ℕ) :=
  let table_data := s.table.map (fun kv => kv.2.get_stats)
  rank 1 (table_data.insertionSort byPoints)

/-- The season states the season-level theorems quantify over: team names
are unique (the data model's `Team` identity invariant) and the table dict
holds exactly one entry per team, in team order — true of every season
built by the constructor and preserved by processing. -/
def Season.WF (s : Season) : Prop :=
  (s.teams.map Team.name).Nodup ∧
  s.table.map Prod.fst = s.teams.map Team.name

theorem rank_map_snd (i : ℕ) (l : List TeamStats) :
    (rank i l).map Prod.snd = List.range' i l.length := by
  induction l generalizing i with
  | nil => rfl
  | cons e rest ih => simp [rank, List.range', ih]

theorem rank_map_fst (i : ℕ) (l : List TeamStats) :
    (rank i l).map Prod.fst = l := by
  induction l generalizing i with
  | nil => rfl
  | cons e rest ih => simp [rank, ih]

/-- Inserting an element commutes with filtering on an exact-points
predicate: elements strictly above it are untouched, so ties keep their
relative order (stability). -/
theorem filter_orderedInsert (v : ℚ) (a : TeamStats) (l : List TeamStats) :
    (List.orderedInsert byPoints a l).filter (fun e => decide (e.total_points = v)) =
      if a.total_points = v then
        a :: l.filter (fun e => decide (e.total_points = v))
      else l.filter (fun e => decide (e.total_points = v)) := by
  induction l with
  | nil =>
    by_cases hv : a.total_points = v <;>
      simp [List.orderedInsert, List.filter, hv]
  | cons b tl ih =>
    by_cases hab : byPoints a b
    · by_cases hv : a.total_points = v <;>
        simp [List.orderedInsert, if_pos hab, List.filter, hv]
    · have hlt : a.total_points < b.total_points :=
        lt_of_not_le (fun hle => hab hle)
      by_cases hbv : b.total_points = v
      · have hav : ¬ a.total_points = v := by
          rw [hbv] at hlt
          exact ne_of_lt hlt
        simp [List.orderedInsert, if_neg hab, List.filter, hbv, hav, ih]
      · by_cases hv : a.total_points = v <;>
          simp [List.orderedInsert, if_neg hab, List.filter, hbv, hv, ih]

/-- The stable sort keeps every group of tied entries in input order. -/
theorem filter_insertionSort (v : ℚ) (l : List TeamStats) :
    (l.insertionSort byPoints).filter (fun e => decide (e.total_points = v)) =
      l.filter (fun e => decide (e.total_points = v)) := by
  induction l with
  | nil => rfl
  | cons a tl ih =>
    show (List.orderedInsert byPoints a (tl.insertionSort byPoints)).filter _ = _
    rw [filter_orderedInsert]
    by_cases hv : a.total_points = v <;> simp [List.filter, hv, ih]

/-- C6 — `get_season_table` returns the per-team stats sorted by
`total_points` descending; the attached positions are exactly 1..N in
order (no gaps, no duplicates); and entries with equal points appear in
table order — the sort is stable and no secondary key is applied. -/
theorem season_table_ranking (s : Season) (_hN : 1 ≤ s.teams.length)
    (hwf : s.WF) :
    (s.get_season_table).map Prod.snd = List.range' 1 s.teams.length ∧
    List.Sorted byPoints ((s.get_season_table).map Prod.fst) ∧
    (∀ v : ℚ, ((s.get_season_table).map Prod.fst).filter
        (fun e => decide (e.total_points = v)) =
      (s.table.map (fun kv => kv.2.get_stats)).filter
        (fun e => decide (e.total_points = v))) := by
  have hlen : s.table.length = s.teams.length := by
    have := congrArg List.length hwf.2
    simpa using this
  refine ⟨?_, ?_, ?_⟩
  · rw [Season.get_season_table, rank_map_snd]
    rw [List.length_insertionSort, List.length_map, hlen]
  · rw [Season.get_season_table, rank_map_fst]
    exact List.sorted_insertionSort byPoints _
  · intro v
    rw [Season.get_season_table, rank_map_fst, filter_insertionSort]

/-- Witness for C6: the fresh two-team season has positions [1, 2], a
sorted table, and both (tied) entries in construction order. -/
theorem season_table_ranking_witness :
    ((Season.init [teamA, teamB] "S").get_season_table).map Prod.snd =
      List.range' 1 2 ∧
    List.Sorted byPoints (((Season.init [teamA, teamB] "S").get_season_table).map
      Prod.fst) ∧
    (((Season.init [teamA, teamB] "S").get_season_table).map Prod.fst).filter
        (fun e => decide (e.total_points = 0)) =
      ((Season.init [teamA, teamB] "S").table.map (fun kv => kv.2.get_stats)).filter
        (fun e => decide (e.total_points = 0)) := by
  have h := season_table_ranking (Season.init [teamA, teamB] "S")
    (by norm_num [Season.init]) ⟨by decide, by decide⟩
  exact ⟨h.1, h.2.1, h.2.2 0⟩


/-! ## `Season.get_season_summary` (C10) -/

/-- Python `max(iterable, key=f)`: first element with maximal key; `none`
on an empty iterable (where CPython raises `ValueError`). -/
def pyMaxByKey {α : Type} (f : α → ℚ) : List α → Option α
  | [] => none
  | x :: xs => some (xs.foldl (fun b a => if f b < f a then a else b) x)

/-- Python `min(iterable, key=f)`: first element with minimal key. -/
def pyMinByKey {α : Type} (f : α → ℚ) : List α → Option α
  | [] => none
  | x :: xs => some (xs.foldl (fun b a => if f a < f b then a else b) x)

/-- The dict returned by `get_season_summary`. -/
structure SeasonSummary : Type where
  season_name : String
  teams : ℕ
  total_matchdays_processed : ℕ
  average_score_per_matchday : ℚ
  final_table : List (TeamStats × ℕ)
  champion : Option String
  champion_points : ℚ
  highest_single_score : ℚ
  highest_score_team : String
  most_consistent_team : String
  season_completed : Bool

/-- `Season.get_season_summary`: the two aggregate `max`/`min` calls run on
the final table unguarded, so an empty table propagates the empty-sequence
error even though champion/champion_points are individually guarded. -/
def Season.get_season_summary (s : Season) : Except String SeasonSummary :=
  let final_table := s.get_season_table
  let all_scores := s.table.foldl
    (fun acc kv => acc ++ kv.2.matchday_scores.map Prod.snd) []
  let total_matchdays := (s.table.map (fun kv => kv.2.matchdays_played)).sum
  match pyMaxByKey (fun e => e.1.best_score) final_table,
      pyMinByKey (fun e => e.1.best_score - e.1.worst_score) final_table with
  | some hst, some mct =>
    .ok { season_name := s.name
          teams := s.teams.length
          total_matchdays_processed := total_matchdays
          average_score_per_matchday :=
            if all_scores.length ≠ 0 then
              pyRound1 (all_scores.sum / all_scores.length) else 0
          final_table := final_table
          champion := (final_table.head?).map (fun e => e.1.team)
          champion_points := ((final_table.head?).map (fun e => e.1.total_points)).getD 0
          highest_single_score := hst.1.best_score
          highest_score_team := hst.1.team
          most_consistent_team := mct.1.team
          season_completed := s.season_completed }
  | _, _ => .error "ValueError: max() iterable argument is empty"

/-- The element Python's keyed `max` keeps scores the fold-max of the keys. -/
theorem foldl_maxBy_key {α : Type} (f : α → ℚ) (xs : List α) (x : α) :
    f (xs.foldl (fun b a => if f b < f a then a else b) x) =
      xs.foldl (fun m a => max m (f a)) (f x) := by
  induction xs generalizing x with
  | nil => rfl
  | cons y ys ih =>
    show f (ys.foldl _ (if f x < f y then y else x)) = ys.foldl _ (max (f x) (f y))
    rw [ih]
    by_cases h : f x < f y
    · rw [if_pos h, max_eq_right (le_of_lt h)]
    · rw [if_neg h, max_eq_left (le_of_not_lt h)]

/-- `pyMaxList` through `foldl max` with any seed. -/
theorem foldl_max_eq (vs : List ℚ) (v : ℚ) :
    vs.foldl max v ∈ v :: vs ∧ ∀ x ∈ v :: vs, x ≤ vs.foldl max v := by
  induction vs generalizing v with
  | nil => exact ⟨List.mem_singleton_self v, by simp⟩
  | cons w ws ih =>
    obtain ⟨hmem, hle⟩ := ih (max v w)
    have hfold : (w :: ws).foldl max v = ws.foldl max (max v w) := rfl
    constructor
    · rw [hfold]
      rcases List.mem_cons.mp hmem with he | htl
      · rw [he]
        rcases max_choice v w with hc | hc
        · rw [hc]
          exact List.mem_cons_self v (w :: ws)
        · rw [hc]
          exact List.mem_cons_of_mem v (List.mem_cons_self w ws)
      · exact List.mem_cons_of_mem v (List.mem_cons_of_mem w htl)
    · intro x hx
      rw [hfold]
      rcases List.mem_cons.mp hx with he | hx2
      · rw [he]
        exact le_trans (le_max_left v w) (hle _ (List.mem_cons_self _ _))
      · rcases List.mem_cons.mp hx2 with he2 | htl
        · rw [he2]
          exact le_trans (le_max_right v w) (hle _ (List.mem_cons_self _ _))
        · exact hle x (List.mem_cons_of_mem _ htl)

/-- `pyMaxList` of a nonempty list is its greatest element. -/
theorem pyMaxList_spec (v : ℚ) (vs : List ℚ) :
    pyMaxList (v :: vs) ∈ v :: vs ∧ ∀ x ∈ v :: vs, x ≤ pyMaxList (v :: vs) :=
  foldl_max_eq vs v

/-- Permuting a list does not change its maximum. -/
theorem pyMaxList_perm (l l2 : List ℚ) (h : l.Perm l2) :
    pyMaxList l = pyMaxList l2 := by
  cases l with
  | nil =>
    have h2 : l2 = [] := h.symm.eq_nil
    rw [h2]
  | cons v vs =>
    cases l2 with
    | nil => exact absurd h.eq_nil (by simp)
    | cons w ws =>
      have s1 := pyMaxList_spec v vs
      have s2 := pyMaxList_spec w ws
      exact le_antisymm (s2.2 _ (h.mem_iff.mp s1.1)) (s1.2 _ (h.mem_iff.mpr s2.1))

/-- The key of the element Python's keyed `max` returns is the maximum of
all the keys. -/
theorem pyMaxByKey_eq {α : Type} (f : α → ℚ) (l : List α) (x : α)
    (h : pyMaxByKey f l = some x) : f x = pyMaxList (l.map f) := by
  cases l with
  | nil => cases h
  | cons y ys =>
    have hx : ys.foldl (fun b a => if f b < f a then a else b) y = x :=
      Option.some.inj h
    rw [← hx, foldl_maxBy_key f ys y]
    show ys.foldl (fun m a => max m (f a)) (f y) = pyMaxList (f y :: ys.map f)
    rw [pyMaxList]
    rw [List.foldl_map]

/-- C10 — With at least one team, `get_season_summary` succeeds; its
`champion` is the `team` field of the first `get_season_table` entry and
its `highest_single_score` is the maximum `best_score` over all teams.
With zero teams it fails: the unguarded `max(final_table, ...)` call sees
an empty sequence, even though `champion`/`champion_points` are
individually guarded for that case. -/
theorem season_summary_fields (s : Season) (hwf : s.WF) :
    (s.teams = [] → s.get_season_summary =
      Except.error "ValueError: max() iterable argument is empty") ∧
    (s.teams ≠ [] → ∃ smry e rest, s.get_season_summary = Except.ok smry ∧
      s.get_season_table = e :: rest ∧
      smry.champion = some e.1.team ∧
      smry.highest_single_score =
        pyMaxList (s.table.map (fun kv => kv.2.get_stats.best_score))) := by
  constructor
  · intro hte
    have h0 : s.table = [] := by
      have h := hwf.2
      rw [hte] at h
      simpa using List.map_eq_nil_iff.mp h
    have hft : s.get_season_table = [] := by
      rw [Season.get_season_table, h0]
      rfl
    rw [Season.get_season_summary, hft]
    rfl
  · intro hne
    have htabne : s.table ≠ [] := by
      intro h0
      apply hne
      have h := hwf.2
      rw [h0] at h
      exact List.map_eq_nil_iff.mp h.symm
    obtain ⟨e, rest, hfe⟩ : ∃ e rest, s.get_season_table = e :: rest := by
      rcases hs : s.get_season_table with _ | ⟨e, rest⟩
      · exfalso
        apply htabne
        have hlen : (s.get_season_table).length =
            (s.table.map (fun kv => kv.2.get_stats)).length := by
          rw [Season.get_season_table]
          have hperm := List.perm_insertionSort byPoints
            (s.table.map (fun kv => kv.2.get_stats))
          have hr : ∀ (i : ℕ) (l : List TeamStats), (rank i l).length = l.length := by
            intro i l
            induction l generalizing i with
            | nil => rfl
            | cons a tl ih => simp [rank, ih]
          rw [hr, hperm.length_eq]
        rw [hs] at hlen
        simp only [List.length_nil, List.length_map] at hlen
        exact (List.length_eq_zero.mp hlen.symm)
      · exact ⟨e, rest, rfl⟩
    rw [Season.get_season_summary, hfe]
    refine ⟨_, e, rest, rfl, rfl, rfl, ?_⟩
    have hmax : pyMaxByKey (fun x : TeamStats × ℕ => x.1.best_score) (e :: rest) =
        some (rest.foldl
          (fun b a => if b.1.best_score < a.1.best_score then a else b) e) := rfl
    have h1 := pyMaxByKey_eq (fun x : TeamStats × ℕ => x.1.best_score) (e :: rest)
      _ hmax
    dsimp only at h1
    show (rest.foldl
        (fun b a => if b.1.best_score < a.1.best_score then a else b) e).1.best_score
      = pyMaxList (s.table.map (fun kv => kv.2.get_stats.best_score))
    rw [h1, ← hfe, Season.get_season_table]
    have h2 : (rank 1 ((s.table.map (fun kv => kv.2.get_stats)).insertionSort
          byPoints)).map (fun x : TeamStats × ℕ => x.1.best_score) =
        ((s.table.map (fun kv => kv.2.get_stats)).insertionSort byPoints).map
          (fun ts : TeamStats => ts.best_score) := by
      rw [show (fun x : TeamStats × ℕ => x.1.best_score) =
        ((fun ts : TeamStats => ts.best_score) ∘ Prod.fst) from rfl]
      rw [← List.map_map, rank_map_fst]
    rw [h2]
    have h3 : pyMaxList (((s.table.map (fun kv => kv.2.get_stats)).insertionSort
          byPoints).map (fun ts : TeamStats => ts.best_score)) =
        pyMaxList ((s.table.map (fun kv => kv.2.get_stats)).map
          (fun ts : TeamStats => ts.best_score)) :=
      pyMaxList_perm _ _ ((List.perm_insertionSort byPoints _).map _)
    rw [h3, List.map_map]
    rfl


/-- Projection used to state the summary witness without binders. -/
def championOf : Except String SeasonSummary → Option (Option String)
  | .ok smry => some smry.champion
  | .error _ => none

/-- Witness for C10: the zero-team season errors; the one-team season
succeeds with champion "A". -/
theorem season_summary_fields_witness :
    (Season.init [] "S").get_season_summary =
      Except.error "ValueError: max() iterable argument is empty" ∧
    championOf ((Season.init [teamA] "S").get_season_summary) = some (some "A") := by
  have h0 := (season_summary_fields (Season.init [] "S") ⟨by decide, by decide⟩).1 rfl
  have h1 := (season_summary_fields (Season.init [teamA] "S")
    ⟨by decide, by decide⟩).2 (by decide)
  obtain ⟨smry, e, rest, hok, hfe, hch, _⟩ := h1
  refine ⟨h0, ?_⟩
  rw [hok]
  show some smry.champion = some (some "A")
  rw [hch]
  have hconc : (Season.init [teamA] "S").get_season_table =
      [((SeasonTable.init teamA).get_stats, 1)] := rfl
  rw [hconc] at hfe
  injection hfe with he hrest
  rw [← he]
  rfl


/-! ## C9 — role mapping during roster population (`loader.py`) -/

/-- The fixed source-code → canonical-role lookup table of
`populate_teams_with_players`. -/
def role_mapping : List (String × String) :=
  [("P", "G"), ("D", "D"), ("C", "M"), ("A", "F")]

/-- A key absent from every binding looks up to `none`. -/
theorem dlookup_eq_none {α β : Type} [DecidableEq α] (l : List (α × β)) (k : α)
    (h : k ∉ l.map Prod.fst) : dlookup l k = none := by
  induction l with
  | nil => rfl
  | cons hd tl ih =>
    obtain ⟨k0, v0⟩ := hd
    simp only [List.map_cons, List.mem_cons] at h
    push_neg at h
    rw [dlookup_cons, if_neg (Ne.symm h.1)]
    exact ih h.2

/-- The per-player construction path of `populate_teams_with_players`:
`role = role_mapping.get(data['Role'], data['Role'])` — an absent code
falls back to the raw code itself — then `Player(cod, role, ...)`, whose
`__init__` runs the `Role(role)` enum constructor. -/
def buildPlayer (cod : ℤ) (rawRole : String) (name team : String) :
    Except String Player :=
  let role := (dlookup role_mapping rawRole).getD rawRole
  (Role.ofValue role).map (fun ro => Player.init cod ro name team)

/-- Counterexample to C9 as stated: the raw code "G" is absent from the
lookup table, yet roster population silently passes it through and
constructs a goalkeeper Player instead of surfacing an error. -/
theorem role_passthrough_counterexample :
    ("G" ∉ role_mapping.map Prod.fst) ∧
    buildPlayer 1 "G" "N" "T" = Except.ok (Player.init 1 Role.G "N" "T") := by
  constructor
  · decide
  · rfl

/-- C9 (amended) — a raw role code absent from the lookup table is passed
through as-is to the `Role` enum constructor: it raises `ValueError`
(surfaced to the caller, no Player constructed) unless the raw code is
itself one of the canonical enum values `G`/`D`/`M`/`F`, which are
silently accepted. -/
theorem role_unknown_behavior (cod : ℤ) (code name team : String)
    (h : code ∉ role_mapping.map Prod.fst) :
    buildPlayer cod code name team =
      if code = "G" then Except.ok (Player.init cod Role.G name team)
      else if code = "D" then Except.ok (Player.init cod Role.D name team)
      else if code = "M" then Except.ok (Player.init cod Role.M name team)
      else if code = "F" then Except.ok (Player.init cod Role.F name team)
      else Except.error ("ValueError: " ++ code ++ " is not a valid Role") := by
  have hnone : dlookup role_mapping code = none :=
    dlookup_eq_none role_mapping code h
  unfold buildPlayer
  rw [hnone]
  show (Role.ofValue code).map (fun ro => Player.init cod ro name team) = _
  unfold Role.ofValue
  by_cases hG : code = "G"
  · simp [hG, Except.map]
  · by_cases hD : code = "D"
    · simp [hG, hD, Except.map]
    · by_cases hM : code = "M"
      · simp [hG, hD, hM, Except.map]
      · by_cases hF : code = "F"
        · simp [hG, hD, hM, hF, Except.map]
        · simp [hG, hD, hM, hF, Except.map]

/-- Witness for C9 (amended): "G" (not in the table) silently builds a
goalkeeper; "Z" (not in the table) raises the enum's ValueError. -/
theorem role_unknown_behavior_witness :
    buildPlayer 1 "G" "N" "T" = Except.ok (Player.init 1 Role.G "N" "T") ∧
    buildPlayer 7 "Z" "N" "T" =
      Except.error ("ValueError: " ++ "Z" ++ " is not a valid Role") := by
  have hG := role_unknown_behavior 1 "G" "N" "T" (by decide)
  have hZ := role_unknown_behavior 7 "Z" "N" "T" (by decide)
  constructor
  · rw [hG]
    rfl
  · rw [hZ]
    rfl


/-! ## C7 — cross-matchday standardization (`data/matchdayprocessor.py`) -/

/-- One row of a matchday CSV as `standardize_player_lists` reads it. -/
structure CsvRecord : Type where
  team : String
  cod : ℤ
  role : String
  name : String
  rating : ℚ
  gf : ℚ
  gs : ℚ
  rp : ℚ
  rs : ℚ
  rf : ℚ
  au : ℚ
  amm : ℚ
  esp : ℚ
  ass : ℚ
deriving DecidableEq

/-- The identity of a row: `(row['Team'], row['Cod'], row['Role'], row['Name'])`. -/
abbrev PKey : Type := String × ℤ × String × String

/-- `player_key` of a row. -/
def CsvRecord.key (r : CsvRecord) : PKey := (r.team, r.cod, r.role, r.name)

/-- The inner loop of step 1: walk a file's rows, appending each first-seen
key (`if player_key not in all_players: all_players[player_key] = ...`;
the stored template is exactly the four key fields). -/
def addKeys (acc : List PKey) : List CsvRecord → List PKey
  | [] => acc
  | r :: rest => addKeys (if r.key ∈ acc then acc else acc ++ [r.key]) rest

/-- Step 1 of `standardize_player_lists`: the player universe, in
first-observation order. -/
def collectKeys (files : List (List CsvRecord)) : List PKey :=
  files.foldl addKeys []

/-- A synthesized record: the template's four identity fields plus all ten
numeric fields set to 0 (rating included). -/
def zeroRecord (k : PKey) : CsvRecord :=
  { team := k.1, cod := k.2.1, role := k.2.2.1, name := k.2.2.2,
    rating := 0, gf := 0, gs := 0, rp := 0, rs := 0,
    rf := 0, au := 0, amm := 0, esp := 0, ass := 0 }

/-- `df.sort_values(['Team', 'Role', 'Name'])`: ascending lexicographic key. -/
def sortKey (r : CsvRecord) : String ×ₗ (String ×ₗ String) :=
  toLex (r.team, toLex (r.role, r.name))

/-- The row order used to sort each standardized file. -/
def byTRN (a b : CsvRecord) : Prop := sortKey a ≤ sortKey b

instance : DecidableRel byTRN :=
  fun a b => inferInstanceAs (Decidable (sortKey a ≤ sortKey b))

instance : IsTotal CsvRecord byTRN := ⟨fun a b => le_total (sortKey a) (sortKey b)⟩

instance : IsTrans CsvRecord byTRN := ⟨fun _ _ _ h1 h2 => le_trans h1 h2⟩

/-- Step 2 for one file: append a zero record for every universe key not in
the file, then sort by (team, role, name). -/
def standardizeFile (allKeys : List PKey) (file : List CsvRecord) : List CsvRecord :=
  let missing := (allKeys.filter
    (fun k => decide (k ∉ file.map CsvRecord.key))).map zeroRecord
  (file ++ missing).insertionSort byTRN

/-- `standardize_player_lists` (no read/merge failures in the pure model):
collect the universe, then standardize every file against it. -/
def standardize_player_lists (files : List (List CsvRecord)) : List (List CsvRecord) :=
  let all_players := collectKeys files
  files.map (standardizeFile all_players)

theorem mem_addKeys (file : List CsvRecord) (acc : List PKey) (k : PKey) :
    k ∈ addKeys acc file ↔ k ∈ acc ∨ ∃ r ∈ file, r.key = k := by
  induction file generalizing acc with
  | nil => simp [addKeys]
  | cons r rest ih =>
    rw [addKeys, ih]
    by_cases hr : r.key ∈ acc
    · rw [if_pos hr]
      constructor
      · rintro (h | ⟨r2, hr2, hk⟩)
        · exact Or.inl h
        · exact Or.inr ⟨r2, List.mem_cons_of_mem r hr2, hk⟩
      · rintro (h | ⟨r2, hr2, hk⟩)
        · exact Or.inl h
        · rcases List.mem_cons.mp hr2 with he | htl
          · subst he
            exact Or.inl (hk ▸ hr)
          · exact Or.inr ⟨r2, htl, hk⟩
    · rw [if_neg hr]
      constructor
      · rintro (h | ⟨r2, hr2, hk⟩)
        · rcases List.mem_append.mp h with ha | hs
          · exact Or.inl ha
          · rw [List.mem_singleton] at hs
            exact Or.inr ⟨r, List.mem_cons_self r rest, hs.symm⟩
        · exact Or.inr ⟨r2, List.mem_cons_of_mem r hr2, hk⟩
      · rintro (h | ⟨r2, hr2, hk⟩)
        · exact Or.inl (List.mem_append.mpr (Or.inl h))
        · rcases List.mem_cons.mp hr2 with he | htl
          · subst he
            exact Or.inl (List.mem_append.mpr
              (Or.inr (List.mem_singleton.mpr hk.symm)))
          · exact Or.inr ⟨r2, htl, hk⟩

theorem mem_collectKeys (files : List (List CsvRecord)) (k : PKey) :
    k ∈ collectKeys files ↔ ∃ file ∈ files, ∃ r ∈ file, r.key = k := by
  have aux : ∀ (fs : List (List CsvRecord)) (acc : List PKey),
      k ∈ fs.foldl addKeys acc ↔
        k ∈ acc ∨ ∃ file ∈ fs, ∃ r ∈ file, r.key = k := by
    intro fs
    induction fs with
    | nil =>
      intro acc
      simp
    | cons f rest ih =>
      intro acc
      rw [List.foldl_cons, ih, mem_addKeys]
      constructor
      · rintro ((h | h) | ⟨file, hf, hr⟩)
        · exact Or.inl h
        · exact Or.inr ⟨f, List.mem_cons_self f rest, h⟩
        · exact Or.inr ⟨file, List.mem_cons_of_mem f hf, hr⟩
      · rintro (h | ⟨file, hf, hr⟩)
        · exact Or.inl (Or.inl h)
        · rcases List.mem_cons.mp hf with he | htl
          · subst he
            exact Or.inl (Or.inr hr)
          · exact Or.inr ⟨file, htl, hr⟩
  have h := aux files []
  simpa using h

/-- Membership in a standardized file: an original row, or a zero record
for a universe key the file lacked. -/
theorem mem_standardizeFile (allKeys : List PKey) (file : List CsvRecord)
    (r : CsvRecord) :
    r ∈ standardizeFile allKeys file ↔
      r ∈ file ∨ ∃ k ∈ allKeys, k ∉ file.map CsvRecord.key ∧ r = zeroRecord k := by
  unfold standardizeFile
  rw [List.mem_insertionSort, List.mem_append]
  constructor
  · rintro (h | h)
    · exact Or.inl h
    · obtain ⟨k, hk, hr⟩ := List.mem_map.mp h
      have hk2 := List.mem_filter.mp hk
      exact Or.inr ⟨k, hk2.1, of_decide_eq_true hk2.2, hr.symm⟩
  · rintro (h | ⟨k, hkall, hknot, hr⟩)
    · exact Or.inl h
    · refine Or.inr (List.mem_map.mpr ⟨k, ?_, hr.symm⟩)
      exact List.mem_filter.mpr ⟨hkall, decide_eq_true hknot⟩

/-- Pairs of `zip (map f l) l` are `(f a, a)` for `a ∈ l`. -/
theorem zip_map_pair {α β : Type} (l : List α) (f : α → β) (pair : β × α)
    (h : pair ∈ (l.map f).zip l) : pair.1 = f pair.2 ∧ pair.2 ∈ l := by
  induction l with
  | nil => cases h
  | cons a tl ih =>
    rcases List.mem_cons.mp h with he | htl
    · rw [he]
      exact ⟨rfl, List.mem_cons_self a tl⟩
    · obtain ⟨h1, h2⟩ := ih htl
      exact ⟨h1, List.mem_cons_of_mem a h2⟩

/-- C7 — After `standardize_player_lists` (no read failures), every output
file's key set is exactly the union of the keys observed across all input
files; every synthesized record (key absent from the paired input file) has
all ten numeric fields 0, rating included; and every output file is sorted
by (team, role, name). -/
theorem standardize_spec (files : List (List CsvRecord)) :
    ∀ pair ∈ (standardize_player_lists files).zip files,
      (∀ k : PKey, (∃ r ∈ pair.1, r.key = k) ↔
        (∃ file ∈ files, ∃ r ∈ file, r.key = k)) ∧
      (∀ r ∈ pair.1, r.key ∉ pair.2.map CsvRecord.key →
        r.rating = 0 ∧ r.gf = 0 ∧ r.gs = 0 ∧ r.rp = 0 ∧ r.rs = 0 ∧ r.rf = 0 ∧
          r.au = 0 ∧ r.amm = 0 ∧ r.esp = 0 ∧ r.ass = 0) ∧
      List.Sorted byTRN pair.1 := by
  intro pair hp
  have hp2 : pair ∈ (files.map (standardizeFile (collectKeys files))).zip files := hp
  obtain ⟨hfst, hmem⟩ := zip_map_pair files (standardizeFile (collectKeys files)) pair hp2
  rw [hfst]
  refine ⟨?_, ?_, ?_⟩
  · intro k
    rw [← mem_collectKeys]
    constructor
    · rintro ⟨r, hr, hk⟩
      rcases (mem_standardizeFile _ _ r).mp hr with hA | ⟨k2, hk2all, _, hr2⟩
      · exact (mem_collectKeys files k).mpr ⟨pair.2, hmem, r, hA, hk⟩
      · have : r.key = k2 := by
          rw [hr2]
          rfl
        rw [← hk, this]
        exact hk2all
    · intro hkall
      by_cases hin : k ∈ pair.2.map CsvRecord.key
      · obtain ⟨r, hrA, hk⟩ := List.mem_map.mp hin
        exact ⟨r, (mem_standardizeFile _ _ r).mpr (Or.inl hrA), hk⟩
      · refine ⟨zeroRecord k, (mem_standardizeFile _ _ _).mpr
          (Or.inr ⟨k, hkall, hin, rfl⟩), rfl⟩
  · intro r hr hkey
    rcases (mem_standardizeFile _ _ r).mp hr with hA | ⟨k2, _, _, hr2⟩
    · exact absurd (List.mem_map_of_mem CsvRecord.key hA) hkey
    · rw [hr2]
      exact ⟨rfl, rfl, rfl, rfl, rfl, rfl, rfl, rfl, rfl, rfl⟩
  · exact List.sorted_insertionSort byTRN _

/-- The claim's concrete instance: matchday A = {x, y}, matchday B = {x, z}. -/
def recX : CsvRecord :=
  { team := "T1", cod := 1, role := "P", name := "X",
    rating := 6, gf := 0, gs := 0, rp := 0, rs := 0,
    rf := 0, au := 0, amm := 0, esp := 0, ass := 0 }

/-- Player y, present only in matchday A. -/
def recY : CsvRecord :=
  { team := "T1", cod := 2, role := "D", name := "Y",
    rating := 7, gf := 1, gs := 0, rp := 0, rs := 0,
    rf := 0, au := 0, amm := 0, esp := 0, ass := 0 }

/-- Player z, present only in matchday B. -/
def recZ : CsvRecord :=
  { team := "T2", cod := 3, role := "A", name := "Z",
    rating := 5, gf := 0, gs := 0, rp := 0, rs := 0,
    rf := 0, au := 0, amm := 0, esp := 0, ass := 0 }

/-- The two-matchday input of the claim's example. -/
def exFiles : List (List CsvRecord) := [[recX, recY], [recX, recZ]]

/-- Witness for C7 at the claim's example: standardized matchday A contains
z's key (so A's key set grew to the union {x, y, z}) and is sorted. -/
theorem standardize_spec_witness :
    (∃ r ∈ standardizeFile (collectKeys exFiles) [recX, recY], r.key = recZ.key) ∧
    List.Sorted byTRN (standardizeFile (collectKeys exFiles) [recX, recY]) := by
  have hmem : (standardizeFile (collectKeys exFiles) [recX, recY], [recX, recY]) ∈
      (standardize_player_lists exFiles).zip exFiles :=
    List.mem_cons_self _ _
  have h := standardize_spec exFiles _ hmem
  refine ⟨?_, h.2.2⟩
  exact (h.1 recZ.key).mpr ⟨[recX, recZ], by simp [exFiles], recZ, by simp, rfl⟩

end Fanta
